import Mathlib

/-!
Verification development for the answer-agreement analysis module
(`aa/aa.py`).  The Python code is shallowly embedded: pandas Series
become `List (Option Val)` (with `none` for NA cells), DataFrames become
an ordered list of column labels plus a list of rows, floats become
exact rationals (`ℚ`), and a float NaN result is `Option.none`.  A
Python exception from a total-looking accessor (`IndexError` from
`self._data[0]`, `StopIteration` from `next(...)`) is likewise modelled
by `Option.none`.
-/

/-- Column labels of a dataset (pandas column names). -/
abbrev Label := String

/-- Cell values stored in a dataset. -/
abbrev Val := String

/-- One row of a dataset: one optional cell per column, `none` = NA. -/
abbrev Row := List (Option Val)

/-!
### `pandas.Series.value_counts`

`series.value_counts()` drops NA values, tallies each distinct value and
returns the tallies sorted by count, descending, with ties between equal
counts kept in first-encountered order.  We embed it as a list of
`(value, count)` pairs built from the distinct values in order of first
occurrence and then stably sorted by descending count.
-/

/-- Distinct elements in order of first occurrence, accumulator style:
`seen` holds the values already emitted. -/
def firstOccurrencesAux : List Val → List Val → List Val
  | [], _ => []
  | a :: l, seen =>
      if a ∈ seen then firstOccurrencesAux l seen
      else a :: firstOccurrencesAux l (a :: seen)

/-- Distinct elements of a list in order of first occurrence. -/
def firstOccurrences (l : List Val) : List Val :=
  firstOccurrencesAux l []

/-- Insert a tally into a list sorted by descending count, before the
first entry whose count is `≤` the inserted one (stable for the
fold-from-the-right sort below). -/
def insertByCount (p : Val × Nat) : List (Val × Nat) → List (Val × Nat)
  | [] => [p]
  | q :: rest => if q.2 ≤ p.2 then p :: q :: rest else q :: insertByCount p rest

/-- Stable sort of tallies by descending count (insertion sort). -/
def sortCountsDesc : List (Val × Nat) → List (Val × Nat)
  | [] => []
  | p :: rest => insertByCount p (sortCountsDesc rest)

/-- `series.value_counts()`: tallies of the non-NA values, sorted by
count descending, ties in first-occurrence order. -/
def value_counts (series : List (Option Val)) : List (Val × Nat) :=
  let vals := series.filterMap id
  sortCountsDesc ((firstOccurrences vals).map (fun v => (v, vals.count v)))

/-- The result series of `GroupAgreement.analyze_answer_votes`: the five
named entries it computes for one question column. -/
structure AnswerVotes where
  correct_answer : Option Val
  all_missing : Bool
  group_all_correct : Bool
  correct_answer_count : Nat
  percent_correct : ℚ
deriving DecidableEq, Repr

/-- `GroupAgreement.analyze_answer_votes` (aa.py lines 471-531).  The
four branches mirror the Python `if counts.empty / elif len(counts) == 1
/ elif counts.iloc[0] == counts.iloc[1] / else` chain; each branch also
carries out the trailing `percent_correct = correct_answer_count /
group_size` on the count that branch selected. -/
def analyze_answer_votes (series : List (Option Val)) : AnswerVotes :=
  let group_size := series.length
  match value_counts series with
  | [] =>
      -- All answers are NA, do nothing (defaults kept)
      { correct_answer := none, all_missing := true, group_all_correct := false,
        correct_answer_count := 0, percent_correct := (0 : ℚ) / group_size }
  | [(v, n)] =>
      -- All non-NA (at least one) are one answer
      { correct_answer := some v, all_missing := false,
        group_all_correct := decide (n = group_size),
        correct_answer_count := n, percent_correct := (n : ℚ) / group_size }
  | (v1, n1) :: (_, n2) :: _ =>
      if n1 = n2 then
        -- Top two answers have same vote count
        { correct_answer := none, all_missing := false, group_all_correct := false,
          correct_answer_count := 0, percent_correct := (0 : ℚ) / group_size }
      else
        -- One answer has more than anything else
        { correct_answer := some v1, all_missing := false, group_all_correct := false,
          correct_answer_count := n1, percent_correct := (n1 : ℚ) / group_size }

/-!
### Column masks (`create_mask`, `refine_mask`, aa.py lines 339-408)

Both scan the dataframe's columns left to right with a `can_collect`
flag.  `refine_mask` additionally keeps a pointer into the candidate
list: Python's pair `column_mask_next` / `column_mask_copy` is
represented here by one remaining list `rem`, with
`column_mask_next = rem.head?` (so `none` when the copy is exhausted)
and the `pop(0)` advance being `rem.tail`.
-/

/-- The loop of `create_mask`: `can` is the current `can_collect`. -/
def create_mask_aux (f l : Option Label) : List Label → Bool → List Label
  | [], _ => []
  | c :: cs, can =>
      let can1 := if some c = f then true else can
      let can2 := if some c = l then false else can1
      (if can1 then [c] else []) ++ create_mask_aux f l cs can2

/-- `create_mask(dataframe, mask_first, mask_last)`: `can_collect`
starts true exactly when `mask_first is None`. -/
def create_mask (cols : List Label) (mask_first mask_last : Option Label) :
    List Label :=
  create_mask_aux mask_first mask_last cols mask_first.isNone

/-- The loop of `refine_mask`: `can` is `can_collect` and `rem` the
not-yet-consumed candidates (`rem.head?` is `column_mask_next`). -/
def refine_mask_aux (f l : Option Label) :
    List Label → Bool → List Label → List Label
  | [], _, _ => []
  | c :: cs, can, rem =>
      let can1 := if some c = f then true else can
      let keep := if some c = rem.head? then can1 else false
      let rem2 := if some c = rem.head? then rem.tail else rem
      let can2 := if some c = l then false else can1
      (if keep then [c] else []) ++ refine_mask_aux f l cs can2 rem2

/-- `refine_mask(dataframe, column_mask, mask_first, mask_last)`. -/
def refine_mask (cols column_mask : List Label)
    (mask_first mask_last : Option Label) : List Label :=
  refine_mask_aux mask_first mask_last cols mask_first.isNone column_mask

/-!
### Dataframes and `GroupAgreement` (aa.py lines 411-565)

A dataframe is its ordered column labels plus its rows; each row holds
one optional cell per column position.
-/

/-- A pandas dataframe: ordered column labels and rows of cells. -/
structure DataFrame where
  cols : List Label
  rows : List Row
deriving DecidableEq, Repr

/-- The values of the column at position `i`, one per row (`none` when a
row is too short, which never happens for well-formed data). -/
def colValues (df : DataFrame) (i : Nat) : List (Option Val) :=
  df.rows.map (fun r => r.getD i none)

/-- The values of the column labelled `c` (first occurrence), as pandas
column selection `df[c]` reads them. -/
def getColByLabel (df : DataFrame) (c : Label) : List (Option Val) :=
  colValues df (df.cols.indexOf c)

/-- `GroupAgreement.masked_dataframe`: the dataframe itself when the
mask is `None`, otherwise the columns selected by the mask, in mask
order. -/
def masked_df (df : DataFrame) (mask : Option (List Label)) : DataFrame :=
  match mask with
  | none => df
  | some m =>
      { cols := m,
        rows := df.rows.map (fun r => m.map (fun c => r.getD (df.cols.indexOf c) none)) }

/-- `GroupAgreement.generate_agreement_measures`: apply
`analyze_answer_votes` to every column of the (masked) dataframe; the
result is indexed by the column labels. -/
def generate_agreement_measures (df : DataFrame) : List (Label × AnswerVotes) :=
  df.cols.enum.map (fun p => (p.2, analyze_answer_votes (colValues df p.1)))

/-- `True`/`False` as the numbers pandas uses when averaging a boolean
column. -/
def boolToRat (b : Bool) : ℚ := if b then 1 else 0

/-- A constructed `GroupAgreement`: the attributes its `__init__`
stores.  `total_agreement = none` models the float NaN that
`.mean()` yields on an empty selection. -/
structure GroupAgreement where
  dataframe : DataFrame
  group_id : Option Val
  column_mask : Option (List Label)
  group_size : Nat
  agreement_results : List (Label × AnswerVotes)
  total_agreement : Option ℚ
deriving DecidableEq, Repr

/-- `GroupAgreement.__init__` (aa.py lines 429-450): analyze the masked
dataframe, then average `group_all_correct` over the records whose
`all_missing` is false (`completed_mask = ~all_missing`). -/
def mkGroupAgreement (df : DataFrame) (gid : Option Val)
    (mask : Option (List Label)) : GroupAgreement :=
  let masked := masked_df df mask
  let results := generate_agreement_measures masked
  let completed := results.filter (fun r => !r.2.all_missing)
  let ta : Option ℚ :=
    if completed.isEmpty then none
    else some ((completed.map (fun r => boolToRat r.2.group_all_correct)).sum
                 / completed.length)
  { dataframe := df, group_id := gid, column_mask := mask,
    group_size := df.rows.length, agreement_results := results,
    total_agreement := ta }

/-- The agreement records selected by `completed_mask`, i.e. those whose
`all_missing` is false. -/
def completed_results (g : GroupAgreement) : List (Label × AnswerVotes) :=
  g.agreement_results.filter (fun r => !r.2.all_missing)

/-- Modelled from the spec: the `comparisons` value the spec describes,
"count of records where `all_missing` is false".  The source class
stores no such attribute; this definition exists to compare the spec's
claim with what the code computes and prints. -/
def comparisons_spec (g : GroupAgreement) : Nat :=
  (completed_results g).length

/-- How the group id appears in the summary f-string (`None` for a
missing id, the raw string otherwise). -/
def idStr : Option Val → String
  | none => "None"
  | some v => v

/-- How the total agreement appears in the summary f-string (NaN prints
as `nan`; numeric rendering abstracted by `toString`). -/
def taStr : Option ℚ → String
  | none => "nan"
  | some q => toString q

/-- `GroupAgreement.print_summary` (aa.py lines 558-561): the two lines
written to standard output. -/
def print_summary_lines (g : GroupAgreement) : List String :=
  ["*** Summary for group " ++ idStr g.group_id,
   "- Total agreement: " ++ taStr g.total_agreement]

/-!
### `DatasetAgreement` (aa.py lines 93-275)

`dataframe.groupby(group_column)` partitions the rows by the distinct
non-null values of the grouping column; pandas yields the groups with
their keys sorted ascending, each group keeping the original relative
row order and all columns (the grouping column included).
-/

/-- Lexicographic `≤` on character lists, comparing code points. -/
def charListLe : List Char → List Char → Bool
  | [], _ => true
  | _ :: _, [] => false
  | a :: as, b :: bs =>
      if a.toNat < b.toNat then true
      else if b.toNat < a.toNat then false
      else charListLe as bs

/-- Lexicographic `≤` on strings (the order pandas sorts string group
keys by). -/
def strLe (a b : Val) : Bool := charListLe a.data b.data

/-- Insert a key into an ascending-sorted list of keys. -/
def insertKey (k : Val) : List Val → List Val
  | [] => [k]
  | k2 :: rest => if strLe k k2 then k :: k2 :: rest else k2 :: insertKey k rest

/-- Sort keys ascending (insertion sort), as pandas `groupby` orders its
groups. -/
def sortKeys (l : List Val) : List Val :=
  l.foldr insertKey []

/-- The distinct non-null values of the grouping column, in the order
`groupby` delivers the groups. -/
def groupKeys (df : DataFrame) (gc : Label) : List Val :=
  sortKeys (firstOccurrences ((getColByLabel df gc).filterMap id))

/-- The rows whose grouping-column cell equals `some k`, in original
order. -/
def rowsWithKey (df : DataFrame) (gc : Label) (k : Val) : List Row :=
  df.rows.filter (fun r => r.getD (df.cols.indexOf gc) none = some k)

/-- A constructed `DatasetAgreement`: the attributes its `__init__`
stores (`unaccounted` stays `None` when no grouping column is given). -/
structure DatasetAgreement where
  dataframe : DataFrame
  group_column : Option Label
  column_mask : Option (List Label)
  unaccounted : Option DataFrame
  data : List GroupAgreement
deriving DecidableEq, Repr

/-- `DatasetAgreement.__init__` (aa.py lines 114-151): one implicit
group when `group_column is None`; otherwise one `GroupAgreement` per
groupby key, and the rows null in the grouping column form
`unaccounted`. -/
def mkDatasetAgreement (df : DataFrame) (gc : Option Label)
    (mask : Option (List Label)) : DatasetAgreement :=
  match gc with
  | none =>
      { dataframe := df, group_column := none, column_mask := mask,
        unaccounted := none,
        data := [mkGroupAgreement df none mask] }
  | some g =>
      { dataframe := df, group_column := some g, column_mask := mask,
        unaccounted := some { cols := df.cols,
                              rows := df.rows.filter
                                (fun r => r.getD (df.cols.indexOf g) none = none) },
        data := (groupKeys df g).map (fun k =>
          mkGroupAgreement { cols := df.cols, rows := rowsWithKey df g k }
            (some k) mask) }

/-- `DatasetAgreement.group` (aa.py lines 248-266): `self._data[0]` for
the default `None` key (`none` models the `IndexError` on an empty
list), otherwise `next(data for data in self._data if data.group_id ==
key)` (`none` models the `StopIteration` when nothing matches). -/
def DatasetAgreement.group (d : DatasetAgreement) (key : Option Val) :
    Option GroupAgreement :=
  match key with
  | none => d.data.head?
  | some k => d.data.find? (fun g => g.group_id = some k)

/-!
### Concrete datasets used to instantiate the theorems below
-/

/-- A one-question, one-row dataset whose single answer is present. -/
def dfOneQ : DataFrame := { cols := ["q1"], rows := [[some "x"]] }

/-- A two-question, one-row dataset with both answers present. -/
def dfTwoQ : DataFrame :=
  { cols := ["q1", "q2"], rows := [[some "x", some "y"]] }

/-- A one-question dataset whose answers are all missing. -/
def dfAllNA : DataFrame := { cols := ["q1"], rows := [[none], [none]] }

/-- A dataset with a `group_id` column holding groups A and B plus one
row unassigned to any group. -/
def dfGroups : DataFrame :=
  { cols := ["group_id", "q1", "q2"],
    rows := [[some "A", some "1", some "1"],
             [some "A", some "1", some "2"],
             [some "A", some "1", some "1"],
             [some "B", some "9", none],
             [none, some "7", none]] }

/-- A dataset whose grouping column is null in every row. -/
def dfNullGroup : DataFrame :=
  { cols := ["gid", "q1"],
    rows := [[none, some "1"], [none, some "2"]] }

/-!
### Facts about `value_counts`
-/

theorem mem_insertByCount {p q : Val × Nat} {l : List (Val × Nat)} :
    p ∈ insertByCount q l ↔ p = q ∨ p ∈ l := by
  induction l with
  | nil => simp [insertByCount]
  | cons r rest ih =>
      by_cases h : r.2 ≤ q.2
      · simp [insertByCount, h]
      · simp only [insertByCount, if_neg h, List.mem_cons, ih]
        tauto

theorem mem_sortCountsDesc {p : Val × Nat} {l : List (Val × Nat)} :
    p ∈ sortCountsDesc l ↔ p ∈ l := by
  induction l with
  | nil => simp [sortCountsDesc]
  | cons q rest ih =>
      simp [sortCountsDesc, mem_insertByCount, ih]

theorem pairwise_insertByCount {q : Val × Nat} {l : List (Val × Nat)}
    (h : l.Pairwise (fun a b => b.2 ≤ a.2)) :
    (insertByCount q l).Pairwise (fun a b => b.2 ≤ a.2) := by
  induction l with
  | nil => simp [insertByCount]
  | cons r rest ih =>
      rcases List.pairwise_cons.mp h with ⟨hr, hrest⟩
      by_cases hle : r.2 ≤ q.2
      · rw [insertByCount, if_pos hle]
        refine List.pairwise_cons.mpr ⟨?_, h⟩
        intro b hb
        rcases List.mem_cons.mp hb with rfl | hb2
        · exact hle
        · exact le_trans (hr b hb2) hle
      · rw [insertByCount, if_neg hle]
        refine List.pairwise_cons.mpr ⟨?_, ih hrest⟩
        intro b hb
        rcases mem_insertByCount.mp hb with rfl | hb2
        · exact le_of_lt (lt_of_not_ge hle)
        · exact hr b hb2

theorem pairwise_sortCountsDesc (l : List (Val × Nat)) :
    (sortCountsDesc l).Pairwise (fun a b => b.2 ≤ a.2) := by
  induction l with
  | nil => simp [sortCountsDesc]
  | cons q rest ih => exact pairwise_insertByCount ih

/-- The tallies `value_counts` returns are sorted by descending count,
so its first two entries carry the two highest counts. -/
theorem value_counts_sorted (s : List (Option Val)) :
    (value_counts s).Pairwise (fun a b => b.2 ≤ a.2) := by
  simpa [value_counts] using
    pairwise_sortCountsDesc
      ((firstOccurrences (s.filterMap id)).map
        (fun v => (v, (s.filterMap id).count v)))

/-- Every tally is the count of its value among the non-NA cells, hence
at most the series length. -/
theorem count_le_of_mem_value_counts {s : List (Option Val)} {p : Val × Nat}
    (h : p ∈ value_counts s) : p.2 ≤ s.length := by
  simp only [value_counts] at h
  rcases List.mem_map.mp (mem_sortCountsDesc.mp h) with ⟨v, _, rfl⟩
  exact le_trans (List.count_le_length v (s.filterMap id))
    (List.length_filterMap_le id s)

/-- C1: when a question column has at least two distinct non-null values
and the two highest tally counts (the first two entries of the sorted
`value_counts`, see `value_counts_sorted`) are equal, the analysis
returns `correct_answer = none`, `all_missing = false`,
`group_all_correct = false` and `correct_answer_count = 0`; and when the
top two counts differ, the remaining (lower) tallies never affect the
result, equal counts among them included. -/
theorem analyze_tie_top_two (s : List (Option Val)) :
    (∀ v1 v2 n rest, value_counts s = (v1, n) :: (v2, n) :: rest →
        (analyze_answer_votes s).correct_answer = none ∧
        (analyze_answer_votes s).all_missing = false ∧
        (analyze_answer_votes s).group_all_correct = false ∧
        (analyze_answer_votes s).correct_answer_count = 0) ∧
    (∀ v1 n1 v2 n2 rest, value_counts s = (v1, n1) :: (v2, n2) :: rest →
        n1 ≠ n2 →
        (analyze_answer_votes s).correct_answer = some v1 ∧
        (analyze_answer_votes s).all_missing = false ∧
        (analyze_answer_votes s).group_all_correct = false ∧
        (analyze_answer_votes s).correct_answer_count = n1) := by
  constructor
  · intro v1 v2 n rest hvc
    simp [analyze_answer_votes, hvc]
  · intro v1 n1 v2 n2 rest hvc hne
    simp [analyze_answer_votes, hvc, hne]

theorem analyze_tie_top_two_witness :
    ((analyze_answer_votes
        [some "a", some "b", some "a", some "b", some "c"]).correct_answer
          = none ∧
      (analyze_answer_votes
        [some "a", some "b", some "a", some "b", some "c"]).all_missing
          = false ∧
      (analyze_answer_votes
        [some "a", some "b", some "a", some "b", some "c"]).group_all_correct
          = false ∧
      (analyze_answer_votes
        [some "a", some "b", some "a", some "b", some "c"]).correct_answer_count
          = 0) ∧
    ((analyze_answer_votes
        [some "x", some "x", some "x", some "y", some "y", some "z", some "z"]).correct_answer
          = some "x" ∧
      (analyze_answer_votes
        [some "x", some "x", some "x", some "y", some "y", some "z", some "z"]).all_missing
          = false ∧
      (analyze_answer_votes
        [some "x", some "x", some "x", some "y", some "y", some "z", some "z"]).group_all_correct
          = false ∧
      (analyze_answer_votes
        [some "x", some "x", some "x", some "y", some "y", some "z", some "z"]).correct_answer_count
          = 3) :=
  ⟨(analyze_tie_top_two _).1 "a" "b" 2 [("c", 1)] (by decide),
   (analyze_tie_top_two _).2 "x" 3 "y" 2 [("z", 2)] (by decide) (by decide)⟩

/-- C7: for a group of size at least one (the series handed to
`analyze_answer_votes` has one cell per row of the group, nulls
included, so its length is the group size), the returned
`correct_answer_count` is at most the group size and `percent_correct`
is exactly `correct_answer_count / group_size`. -/
theorem analyze_count_le_and_percent (s : List (Option Val))
    (_h : 1 ≤ s.length) :
    (analyze_answer_votes s).correct_answer_count ≤ s.length ∧
    (analyze_answer_votes s).percent_correct =
      ((analyze_answer_votes s).correct_answer_count : ℚ) / (s.length : ℚ) := by
  rcases hvc : value_counts s with _ | ⟨⟨v, n⟩, _ | ⟨⟨v2, n2⟩, rest⟩⟩
  · simp [analyze_answer_votes, hvc]
  · have hmem : (v, n) ∈ value_counts s := by rw [hvc]; exact List.mem_singleton.mpr rfl
    have := count_le_of_mem_value_counts hmem
    simp only [analyze_answer_votes, hvc]
    exact ⟨this, by trivial⟩
  · by_cases hne : n = n2
    · simp [analyze_answer_votes, hvc, hne]
    · have hmem : (v, n) ∈ value_counts s := by rw [hvc]; exact List.mem_cons_self _ _
      have := count_le_of_mem_value_counts hmem
      simp only [analyze_answer_votes, hvc, if_neg hne]
      exact ⟨this, by trivial⟩

theorem analyze_count_le_and_percent_witness :
    (analyze_answer_votes [some "a", some "a", some "b", none]).correct_answer_count
        ≤ ([some "a", some "a", some "b", none] : List (Option Val)).length ∧
    (analyze_answer_votes [some "a", some "a", some "b", none]).percent_correct =
      ((analyze_answer_votes [some "a", some "a", some "b", none]).correct_answer_count : ℚ)
        / (([some "a", some "a", some "b", none] : List (Option Val)).length : ℚ) :=
  analyze_count_le_and_percent [some "a", some "a", some "b", none] (by decide)

/-!
### Facts about the mask builders
-/

theorem create_mask_aux_sublist (f l : Option Label) (cs : List Label) :
    ∀ can : Bool, List.Sublist (create_mask_aux f l cs can) cs := by
  induction cs with
  | nil => intro can; simp [create_mask_aux]
  | cons c cs ih =>
      intro can
      simp only [create_mask_aux]
      cases hb : (if some c = f then true else can) with
      | false => simpa using List.Sublist.cons c (ih _)
      | true => simpa using List.Sublist.cons₂ c (ih _)

theorem refine_mask_aux_sublist (f l : Option Label) (cs : List Label) :
    ∀ (can : Bool) (rem : List Label),
      List.Sublist (refine_mask_aux f l cs can rem) cs := by
  induction cs with
  | nil => intro can rem; simp [refine_mask_aux]
  | cons c cs ih =>
      intro can rem
      simp only [refine_mask_aux]
      cases hk : (if some c = List.head? rem then
          (if some c = f then true else can) else false) with
      | false => simpa using List.Sublist.cons c (ih _ _)
      | true => simpa using List.Sublist.cons₂ c (ih _ _)

theorem not_mem_create_mask_aux {f l : Option Label} {cs : List Label}
    {c : Label} (h : c ∉ cs) (can : Bool) :
    c ∉ create_mask_aux f l cs can :=
  fun hm => h ((create_mask_aux_sublist f l cs can).subset hm)

theorem refine_mask_aux_rem_nil (f l : Option Label) :
    ∀ (cs : List Label) (can : Bool), refine_mask_aux f l cs can [] = [] := by
  intro cs
  induction cs with
  | nil => intro can; simp [refine_mask_aux]
  | cons c cs ih => intro can; simp [refine_mask_aux, ih]

theorem mem_refine_mask_aux (f l : Option Label) :
    ∀ (cs : List Label) (can : Bool) (rem : List Label) (c : Label),
      cs.Nodup → List.Sublist rem cs →
      (c ∈ refine_mask_aux f l cs can rem ↔
        c ∈ create_mask_aux f l cs can ∧ c ∈ rem) := by
  intro cs
  induction cs with
  | nil =>
      intro can rem c _ hsub
      rw [List.sublist_nil.mp hsub]
      simp [refine_mask_aux, create_mask_aux]
  | cons c0 cs ih =>
      intro can rem c hnd hsub
      rcases List.nodup_cons.mp hnd with ⟨hc0, hnd2⟩
      cases rem with
      | nil =>
          simp [refine_mask_aux, refine_mask_aux_rem_nil]
      | cons r rs =>
          by_cases hr : c0 = r
          · subst hr
            have hrs : List.Sublist rs cs := List.cons_sublist_cons.mp hsub
            have hnotrs : c0 ∉ rs := fun hm => hc0 (hrs.subset hm)
            simp only [refine_mask_aux, create_mask_aux, List.head?_cons,
              if_pos rfl, if_true, List.tail_cons]
            rw [List.mem_append, List.mem_append, ih _ _ _ hnd2 hrs]
            by_cases hc : c = c0
            · subst hc
              cases hcan : (if some c = f then true else can) <;>
                simp [hcan, hnotrs, not_mem_create_mask_aux hc0]
            · simp [hc]
          · have hsub2 : List.Sublist (r :: rs) cs := by
              cases hsub with
              | cons _ h => exact h
              | cons₂ _ h => exact absurd rfl hr
            have hrnot : c ∈ r :: rs → c = c0 → False := by
              intro hm he
              subst he
              exact hc0 (hsub2.subset hm)
            have hhit : (some c0 = List.head? (r :: rs)) = False := by
              simp [List.head?_cons, hr]
            simp only [refine_mask_aux, create_mask_aux, hhit, if_false]
            rw [List.mem_append, List.mem_append, ih _ _ _ hnd2 hsub2]
            by_cases hc : c = c0
            · subst hc
              have h2 : c ∉ r :: rs := fun hm => hrnot hm rfl
              cases hcan : (if some c = f then true else can) <;>
                simp [hcan, h2, not_mem_create_mask_aux hc0]
            · simp [hc]

theorem create_mask_aux_first_missing (fl : Label) (l : Option Label) :
    ∀ cs : List Label, fl ∉ cs → create_mask_aux (some fl) l cs false = [] := by
  intro cs
  induction cs with
  | nil => intro _; simp [create_mask_aux]
  | cons c cs ih =>
      intro h
      rw [List.mem_cons, not_or] at h
      obtain ⟨h1, h2⟩ := h
      have hcn : ¬ (some c = some fl) := by simp [Ne.symm h1]
      simp [create_mask_aux, hcn, ih h2]

theorem refine_mask_aux_first_missing (fl : Label) (l : Option Label) :
    ∀ cs : List Label, fl ∉ cs →
      ∀ rem : List Label, refine_mask_aux (some fl) l cs false rem = [] := by
  intro cs
  induction cs with
  | nil => intro _ rem; simp [refine_mask_aux]
  | cons c cs ih =>
      intro h rem
      rw [List.mem_cons, not_or] at h
      obtain ⟨h1, h2⟩ := h
      have hcn : ¬ (some c = some fl) := by simp [Ne.symm h1]
      simp [refine_mask_aux, hcn, ih h2]

theorem create_mask_aux_last_missing (f : Option Label) (ll : Label) :
    ∀ cs : List Label, ll ∉ cs → create_mask_aux f (some ll) cs true = cs := by
  intro cs
  induction cs with
  | nil => intro _; simp [create_mask_aux]
  | cons c cs ih =>
      intro h
      rw [List.mem_cons, not_or] at h
      obtain ⟨h1, h2⟩ := h
      have hcn : ¬ (some c = some ll) := by simp [Ne.symm h1]
      simp [create_mask_aux, hcn, ih h2]

/-- C3 (counterexample): with `first = "z"` absent from the columns, the
mask builders raise nothing and return a mask (the empty one); with
`last` absent they return the full range.  No `LookupError` exists in
`create_mask`/`refine_mask`. -/
theorem mask_missing_boundary_counterexample :
    create_mask ["a", "b"] (some "z") none = [] ∧
    refine_mask ["a", "b"] ["a", "b"] (some "z") none = [] ∧
    create_mask ["a", "b"] none (some "z") = ["a", "b"] := by decide

/-- C3 (amended): a `first` boundary label absent from the dataset's
columns makes the mask builders silently return the empty mask (the
"in range" flag never turns true), and an absent `last` leaves the
range open through the final column; neither raises a `LookupError`. -/
theorem mask_missing_boundary_total (cols cand : List Label) (fl ll : Label)
    (lopt : Option Label) (hf : fl ∉ cols) (hl : ll ∉ cols) :
    create_mask cols (some fl) lopt = [] ∧
    refine_mask cols cand (some fl) lopt = [] ∧
    create_mask cols none (some ll) = cols := by
  refine ⟨?_, ?_, ?_⟩
  · simpa [create_mask] using create_mask_aux_first_missing fl lopt cols hf
  · simpa [refine_mask] using refine_mask_aux_first_missing fl lopt cols hf cand
  · simpa [create_mask] using create_mask_aux_last_missing none ll cols hl

theorem mask_missing_boundary_total_witness :
    create_mask ["a", "b"] (some "q") (some "b") = [] ∧
    refine_mask ["a", "b"] ["b"] (some "q") (some "b") = [] ∧
    create_mask ["a", "b"] none (some "r") = ["a", "b"] :=
  mask_missing_boundary_total ["a", "b"] ["b"] "q" "r" (some "b")
    (by decide) (by decide)

/-- C2 (counterexample): `refine_mask` consumes the candidate list in
lockstep with the column scan, so candidate order matters: with columns
`[a, b]` and candidates listed as `[b, a]`, the label `a` is in range
and among the candidates, yet absent from the returned mask. -/
theorem refine_mask_order_counterexample :
    "a" ∈ create_mask ["a", "b"] none none ∧
    "a" ∈ (["b", "a"] : List Label) ∧
    "a" ∉ refine_mask ["a", "b"] ["b", "a"] none none := by decide

/-- C2 (amended): when the dataset's columns are distinct and the
candidate list is ordered consistently with them (a sublist of the full
column list), a label is in `refine_mask`'s output iff the "in range"
flag is true at its position (membership in `create_mask`'s output for
the same boundaries) and the label is among the candidates. -/
theorem mem_refine_mask (cols cand : List Label) (f l : Option Label)
    (c : Label) (hnd : cols.Nodup) (hsub : List.Sublist cand cols) :
    c ∈ refine_mask cols cand f l ↔
      c ∈ create_mask cols f l ∧ c ∈ cand := by
  simpa [refine_mask, create_mask] using
    mem_refine_mask_aux f l cols f.isNone cand c hnd hsub

theorem mem_refine_mask_witness :
    ("c" ∈ refine_mask ["a", "b", "c", "d"] ["a", "c"] (some "b") none ↔
      "c" ∈ create_mask ["a", "b", "c", "d"] (some "b") none ∧
        "c" ∈ (["a", "c"] : List Label)) ∧
    ("a" ∈ refine_mask ["a", "b", "c", "d"] ["a", "c"] (some "b") none ↔
      "a" ∈ create_mask ["a", "b", "c", "d"] (some "b") none ∧
        "a" ∈ (["a", "c"] : List Label)) :=
  ⟨mem_refine_mask ["a", "b", "c", "d"] ["a", "c"] (some "b") none "c"
      (by decide) (by decide),
   mem_refine_mask ["a", "b", "c", "d"] ["a", "c"] (some "b") none "a"
      (by decide) (by decide)⟩

/-- C8: whatever the boundaries and however the candidate list is
ordered, both mask builders return a subsequence of the full column
list, in the dataset's original column order. -/
theorem mask_sublist_of_cols (cols cand : List Label) (f l : Option Label) :
    List.Sublist (create_mask cols f l) cols ∧
    List.Sublist (refine_mask cols cand f l) cols :=
  ⟨create_mask_aux_sublist f l cols _, refine_mask_aux_sublist f l cols _ _⟩

/-!
### `GroupAgreement` aggregation facts
-/

theorem mkGroupAgreement_total_agreement (df : DataFrame) (gid : Option Val)
    (mask : Option (List Label)) :
    (mkGroupAgreement df gid mask).total_agreement =
      if (completed_results (mkGroupAgreement df gid mask)).isEmpty then none
      else some (((completed_results (mkGroupAgreement df gid mask)).map
          (fun r => boolToRat r.2.group_all_correct)).sum /
        ((completed_results (mkGroupAgreement df gid mask)).length : ℚ)) := rfl

/-- C5: `total_agreement` is the mean of `group_all_correct` over
exactly the records whose `all_missing` is false, and when every masked
column is all-missing it is the NaN value (`none`), produced by the
total function `mkGroupAgreement` rather than by raising. -/
theorem total_agreement_mean (df : DataFrame) (gid : Option Val)
    (mask : Option (List Label)) :
    (completed_results (mkGroupAgreement df gid mask) ≠ [] →
      (mkGroupAgreement df gid mask).total_agreement =
        some (((completed_results (mkGroupAgreement df gid mask)).map
            (fun r => boolToRat r.2.group_all_correct)).sum /
          ((completed_results (mkGroupAgreement df gid mask)).length : ℚ))) ∧
    ((∀ r ∈ (mkGroupAgreement df gid mask).agreement_results,
        r.2.all_missing = true) →
      (mkGroupAgreement df gid mask).total_agreement = none) := by
  constructor
  · intro h
    rw [mkGroupAgreement_total_agreement,
      if_neg (by simpa [List.isEmpty_iff] using h)]
  · intro h
    have hnil : completed_results (mkGroupAgreement df gid mask) = [] := by
      rw [completed_results, List.filter_eq_nil_iff]
      intro r hr
      simp [h r hr]
    rw [mkGroupAgreement_total_agreement, if_pos (by simp [hnil])]

theorem total_agreement_mean_witness :
    ((mkGroupAgreement dfOneQ (some "A") none).total_agreement =
      some (((completed_results (mkGroupAgreement dfOneQ (some "A") none)).map
          (fun r => boolToRat r.2.group_all_correct)).sum /
        ((completed_results (mkGroupAgreement dfOneQ (some "A") none)).length : ℚ))) ∧
    (mkGroupAgreement dfAllNA (some "A") none).total_agreement = none :=
  ⟨(total_agreement_mean dfOneQ (some "A") none).1 (by decide),
   (total_agreement_mean dfAllNA (some "A") none).2 (by decide)⟩

/-- C4 (counterexample): `GroupAgreement` construction stores no
`comparisons` attribute and `print_summary` does not write one: two
groups whose printed summaries are identical, line for line, have
different counts of non-all-missing records, so the output cannot
contain the comparison count the claim says is written. -/
theorem print_summary_comparisons_counterexample :
    print_summary_lines (mkGroupAgreement dfOneQ (some "A") none) =
      print_summary_lines (mkGroupAgreement dfTwoQ (some "A") none) ∧
    comparisons_spec (mkGroupAgreement dfOneQ (some "A") none) ≠
      comparisons_spec (mkGroupAgreement dfTwoQ (some "A") none) := by
  constructor
  · have e1 : completed_results (mkGroupAgreement dfOneQ (some "A") none) =
        [("q1", analyze_answer_votes [some "x"])] := rfl
    have e2 : completed_results (mkGroupAgreement dfTwoQ (some "A") none) =
        [("q1", analyze_answer_votes [some "x"]),
         ("q2", analyze_answer_votes [some "y"])] := rfl
    have hx : (analyze_answer_votes [some "x"]).group_all_correct = true := rfl
    have hy : (analyze_answer_votes [some "y"]).group_all_correct = true := rfl
    have hA : (mkGroupAgreement dfOneQ (some "A") none).total_agreement =
        some 1 := by
      rw [mkGroupAgreement_total_agreement, e1]
      norm_num [boolToRat, hx]
    have hB : (mkGroupAgreement dfTwoQ (some "A") none).total_agreement =
        some 1 := by
      rw [mkGroupAgreement_total_agreement, e2]
      norm_num [boolToRat, hx, hy]
    have gA : (mkGroupAgreement dfOneQ (some "A") none).group_id
        = some "A" := rfl
    have gB : (mkGroupAgreement dfTwoQ (some "A") none).group_id
        = some "A" := rfl
    simp [print_summary_lines, hA, hB, gA, gB]
  · decide

/-- C4 (amended): construction computes `total_agreement` with the
count of non-all-missing records as the mean's denominator but stores
no `comparisons` attribute, and `print_summary` writes exactly two
lines to standard output: the group id and the total agreement — the
comparison count is not among them. -/
theorem comparisons_denominator_and_print (df : DataFrame) (gid : Option Val)
    (mask : Option (List Label)) :
    ((mkGroupAgreement df gid mask).total_agreement =
      if comparisons_spec (mkGroupAgreement df gid mask) = 0 then none
      else some (((completed_results (mkGroupAgreement df gid mask)).map
          (fun r => boolToRat r.2.group_all_correct)).sum /
        (comparisons_spec (mkGroupAgreement df gid mask) : ℚ))) ∧
    print_summary_lines (mkGroupAgreement df gid mask) =
      ["*** Summary for group " ++ idStr gid,
       "- Total agreement: " ++
         taStr (mkGroupAgreement df gid mask).total_agreement] := by
  constructor
  · rw [mkGroupAgreement_total_agreement]
    by_cases h : (completed_results (mkGroupAgreement df gid mask)).isEmpty
    · rw [if_pos h, if_pos]
      simpa [comparisons_spec, List.isEmpty_iff, List.length_eq_zero] using h
    · rw [if_neg h, if_neg]
      · rfl
      · simpa [comparisons_spec, List.isEmpty_iff, List.length_eq_zero] using h
  · rfl

/-- C6: looking a group up by an explicitly given key fails (the raised
`StopIteration` of `next(...)`, modelled as `none`) when no stored
group has that `group_id`, and returns a stored group with the matching
`group_id` when one exists. -/
theorem dataset_group_lookup (d : DatasetAgreement) (k : Val) :
    ((∀ g ∈ d.data, g.group_id ≠ some k) → d.group (some k) = none) ∧
    ((∃ g0 ∈ d.data, g0.group_id = some k) →
      ∃ g2, d.group (some k) = some g2 ∧ g2.group_id = some k) := by
  constructor
  · intro h
    simp only [DatasetAgreement.group]
    rw [List.find?_eq_none]
    intro x hx
    simp [h x hx]
  · rintro ⟨g0, hg0, hid⟩
    have hs : (d.data.find? (fun g => g.group_id = some k)).isSome := by
      rw [List.find?_isSome]
      exact ⟨g0, hg0, by simp [hid]⟩
    rcases Option.isSome_iff_exists.mp hs with ⟨g2, hg2⟩
    refine ⟨g2, hg2, ?_⟩
    simpa using List.find?_some hg2

theorem dataset_group_lookup_witness :
    ((mkDatasetAgreement dfGroups (some "group_id") none).group (some "Z")
        = none) ∧
    (∃ g2, (mkDatasetAgreement dfGroups (some "group_id") none).group
        (some "A") = some g2 ∧ g2.group_id = some "A") :=
  ⟨(dataset_group_lookup (mkDatasetAgreement dfGroups (some "group_id") none)
      "Z").1 (by decide),
   (dataset_group_lookup (mkDatasetAgreement dfGroups (some "group_id") none)
      "A").2 (by decide)⟩

/-- C9: when every row is null in the grouping column, construction
succeeds with zero groups, all rows land in `unaccounted`, and the
default `group()` lookup yields the `IndexError` of `self._data[0]` on
an empty list (modelled as `none`) instead of a group. -/
theorem all_null_grouping (df : DataFrame) (g : Label)
    (h : ∀ r ∈ df.rows, r.getD (df.cols.indexOf g) none = none) :
    (mkDatasetAgreement df (some g) none).data = [] ∧
    (mkDatasetAgreement df (some g) none).unaccounted =
      some { cols := df.cols, rows := df.rows } ∧
    (mkDatasetAgreement df (some g) none).group none = none := by
  have hcol : (getColByLabel df g).filterMap id = [] := by
    rw [List.filterMap_eq_nil_iff]
    intro a ha
    rcases List.mem_map.mp ha with ⟨r, hr, rfl⟩
    exact h r hr
  have hkeys : groupKeys df g = [] := by
    rw [groupKeys, hcol]
    rfl
  refine ⟨?_, ?_, ?_⟩
  · simp [mkDatasetAgreement, hkeys]
  · simp only [mkDatasetAgreement, Option.some.injEq]
    congr 1
    exact List.filter_eq_self.mpr (fun r hr => by simpa [List.getD] using h r hr)
  · simp [DatasetAgreement.group, mkDatasetAgreement, hkeys]

theorem all_null_grouping_witness :
    (mkDatasetAgreement dfNullGroup (some "gid") none).data = [] ∧
    (mkDatasetAgreement dfNullGroup (some "gid") none).unaccounted =
      some { cols := dfNullGroup.cols, rows := dfNullGroup.rows } ∧
    (mkDatasetAgreement dfNullGroup (some "gid") none).group none = none :=
  all_null_grouping dfNullGroup "gid" (by decide)

/-!
### Facts feeding the grouping-column unanimity argument
-/

theorem mem_firstOccurrencesAux {x : Val} :
    ∀ {l seen : List Val}, x ∈ firstOccurrencesAux l seen → x ∈ l := by
  intro l
  induction l with
  | nil => intro seen h; simp [firstOccurrencesAux] at h
  | cons a as ih =>
      intro seen h
      by_cases ha : a ∈ seen
      · rw [firstOccurrencesAux, if_pos ha] at h
        exact List.mem_cons_of_mem _ (ih h)
      · rw [firstOccurrencesAux, if_neg ha] at h
        rcases List.mem_cons.mp h with rfl | h2
        · exact List.mem_cons_self _ _
        · exact List.mem_cons_of_mem _ (ih h2)

theorem mem_insertKey {x k : Val} {l : List Val} :
    x ∈ insertKey k l ↔ x = k ∨ x ∈ l := by
  induction l with
  | nil => simp [insertKey]
  | cons k2 rest ih =>
      by_cases hle : strLe k k2
      · simp [insertKey, hle]
      · simp only [insertKey, if_neg hle, List.mem_cons, ih]
        tauto

theorem mem_sortKeys {x : Val} {l : List Val} : x ∈ sortKeys l ↔ x ∈ l := by
  induction l with
  | nil => simp [sortKeys]
  | cons k rest ih =>
      simp only [sortKeys, List.foldr_cons, mem_insertKey, List.mem_cons]
      rw [sortKeys] at ih
      rw [ih]

theorem filterMap_id_all_some {l : List (Option Val)} {k : Val}
    (hall : ∀ x ∈ l, x = some k) :
    l.filterMap id = List.replicate l.length k := by
  induction l with
  | nil => simp
  | cons a as ih =>
      have ha : a = some k := hall a (List.mem_cons_self _ _)
      subst ha
      simp [List.replicate_succ,
        ih (fun x hx => hall x (List.mem_cons_of_mem _ hx))]

theorem firstOccurrencesAux_replicate {k : Val} {seen : List Val}
    (hks : k ∈ seen) :
    ∀ n, firstOccurrencesAux (List.replicate n k) seen = [] := by
  intro n
  induction n with
  | zero => simp [firstOccurrencesAux]
  | succ n ih => simp [List.replicate_succ, firstOccurrencesAux, hks, ih]

theorem firstOccurrences_replicate (k : Val) (n : Nat) (h : n ≠ 0) :
    firstOccurrences (List.replicate n k) = [k] := by
  cases n with
  | zero => exact absurd rfl h
  | succ n =>
      rw [firstOccurrences, List.replicate_succ, firstOccurrencesAux]
      simp [firstOccurrencesAux_replicate (List.mem_cons_self k [])]

theorem value_counts_all_some {l : List (Option Val)} {k : Val}
    (hne : l ≠ []) (hall : ∀ x ∈ l, x = some k) :
    value_counts l = [(k, l.length)] := by
  have hlen : l.length ≠ 0 := fun h0 => hne (List.length_eq_zero.mp h0)
  simp [value_counts, filterMap_id_all_some hall,
    firstOccurrences_replicate k l.length hlen, List.count_replicate_self,
    sortCountsDesc, insertByCount]

theorem analyze_all_some {l : List (Option Val)} {k : Val}
    (hne : l ≠ []) (hall : ∀ x ∈ l, x = some k) :
    (analyze_answer_votes l).all_missing = false ∧
    (analyze_answer_votes l).group_all_correct = true ∧
    (analyze_answer_votes l).correct_answer = some k := by
  simp [analyze_answer_votes, value_counts_all_some hne hall]

/-- C10: with a grouping column and no column mask, every constructed
group analyzes the grouping column itself among its question columns;
there it is unanimous (every cell equals the group key, non-null), so
its record has `all_missing = false` and `group_all_correct = true` and
belongs to the completed records averaged into `total_agreement`. -/
theorem grouping_column_unanimous (df : DataFrame) (g : Label)
    (hg : g ∈ df.cols) :
    ∀ ga ∈ (mkDatasetAgreement df (some g) none).data,
      ∃ rec, rec ∈ ga.agreement_results ∧ rec ∈ completed_results ga ∧
        rec.1 = g ∧ rec.2.all_missing = false ∧
        rec.2.group_all_correct = true := by
  intro ga hga
  simp only [mkDatasetAgreement] at hga
  rcases List.mem_map.mp hga with ⟨k, hk, rfl⟩
  -- the group key occurs in the grouping column of the dataset
  have hkfo : k ∈ (getColByLabel df g).filterMap id := by
    have h1 : k ∈ firstOccurrences ((getColByLabel df g).filterMap id) :=
      mem_sortKeys.mp (by simpa [groupKeys] using hk)
    exact mem_firstOccurrencesAux h1
  have hkcol : some k ∈ getColByLabel df g := by
    rcases List.mem_filterMap.mp hkfo with ⟨a, ha, haeq⟩
    simp only [id] at haeq
    exact haeq ▸ ha
  -- hence the group has at least one row, and all its grouping cells
  -- equal the key
  rcases List.mem_map.mp hkcol with ⟨r0, hr0, hr0eq⟩
  have hr0mem : r0 ∈ rowsWithKey df g k :=
    List.mem_filter.mpr ⟨hr0, by simpa [List.getD] using hr0eq⟩
  have hallk : ∀ x ∈ colValues { cols := df.cols, rows := rowsWithKey df g k }
      (df.cols.indexOf g), x = some k := by
    intro x hx
    rcases List.mem_map.mp hx with ⟨r, hr, rfl⟩
    have h2 := (List.mem_filter.mp hr).2
    exact of_decide_eq_true h2
  have hne : colValues { cols := df.cols, rows := rowsWithKey df g k }
      (df.cols.indexOf g) ≠ [] := by
    simp only [colValues, ne_eq, List.map_eq_nil_iff]
    exact List.ne_nil_of_mem hr0mem
  obtain ⟨ham, hgac, _⟩ := analyze_all_some hne hallk
  -- the grouping column is among the analyzed columns
  have hidx : df.cols.indexOf g < df.cols.length :=
    List.indexOf_lt_length.mpr hg
  have henum : (df.cols.indexOf g, g) ∈ df.cols.enum := by
    rw [List.mk_mem_enum_iff_getElem?]
    exact List.getElem?_indexOf hg
  have hrec : (g, analyze_answer_votes
      (colValues { cols := df.cols, rows := rowsWithKey df g k }
        (df.cols.indexOf g))) ∈
      (mkGroupAgreement { cols := df.cols, rows := rowsWithKey df g k }
        (some k) none).agreement_results := by
    show _ ∈ generate_agreement_measures
      (masked_df { cols := df.cols, rows := rowsWithKey df g k } none)
    exact List.mem_map.mpr ⟨(df.cols.indexOf g, g), henum, rfl⟩
  refine ⟨(g, analyze_answer_votes
      (colValues { cols := df.cols, rows := rowsWithKey df g k }
        (df.cols.indexOf g))), hrec, ?_, rfl, ham, hgac⟩
  exact List.mem_filter.mpr ⟨hrec, by simp [ham]⟩

theorem grouping_column_unanimous_witness :
    ∃ rec,
      rec ∈ (mkGroupAgreement
        { cols := dfGroups.cols, rows := rowsWithKey dfGroups "group_id" "A" }
        (some "A") none).agreement_results ∧
      rec ∈ completed_results (mkGroupAgreement
        { cols := dfGroups.cols, rows := rowsWithKey dfGroups "group_id" "A" }
        (some "A") none) ∧
      rec.1 = "group_id" ∧ rec.2.all_missing = false ∧
      rec.2.group_all_correct = true := by
  have h := grouping_column_unanimous dfGroups "group_id" (by decide)
  exact h (mkGroupAgreement
    { cols := dfGroups.cols, rows := rowsWithKey dfGroups "group_id" "A" }
    (some "A") none) (by
      simp only [mkDatasetAgreement]
      exact List.mem_map.mpr ⟨"A", by decide, rfl⟩)
